import Mathlib

/-!
Verification of the smart WebDAV gateway proxy (`smart_webdav_gui.py`).

The development shallowly embeds the proxy core: request classification and
target-URL construction (`get_target_url`), request-side header sanitization
(`clean_headers` plus the User-Agent injection in `proxy`), response-side
header filtering and chunked body relaying (the success branch of `proxy`),
the 502 error branch, and the GUI-side start path (`toggle_server`,
`run_flask`).  Inbound headers are lists of name/value pairs; the Python
`dict` built by `clean_headers` is modelled as an association list with
update-or-append insertion, which matches `dict` assignment semantics
(updating an existing key keeps its position, a new key is appended).
Bodies are byte sequences modelled as `List Nat`.
-/

namespace SmartWebdav

/-- A routing configuration snapshot: the two upstream base URLs
(`tailscale_url` is the read upstream, `cloudflare_url` the write upstream). -/
structure Config where
  tailscale_url : String
  cloudflare_url : String
deriving Repr, DecidableEq

/-- `READ_METHODS` from the source: methods routed to the read upstream. -/
def READ_METHODS : List String := ["GET", "HEAD", "OPTIONS", "PROPFIND"]

/-- `HOP_BY_HOP_HEADERS` from the source (all lowercase). -/
def HOP_BY_HOP_HEADERS : List String :=
  ["connection", "keep-alive", "proxy-authenticate",
   "proxy-authorization", "te", "trailers",
   "transfer-encoding", "upgrade"]

/-- ASCII uppercasing of one character, as Python `str.upper()` acts on the
ASCII method names at hand. -/
def upChar (c : Char) : Char :=
  if 'a' ≤ c ∧ c ≤ 'z' then Char.ofNat (c.toNat - 32) else c

/-- Python `s.upper()` (ASCII). -/
def py_upper (s : String) : String := String.mk (s.data.map upChar)

/-- ASCII lowercasing of one character, as Python `str.lower()` acts on the
ASCII header names at hand. -/
def downChar (c : Char) : Char :=
  if 'A' ≤ c ∧ c ≤ 'Z' then Char.ofNat (c.toNat + 32) else c

/-- Python `s.lower()` (ASCII). -/
def py_lower (s : String) : String := String.mk (s.data.map downChar)

/-- Python `s.rstrip('/')`: remove every trailing `'/'` character. -/
def rstrip_slash (s : String) : String :=
  String.mk ((s.data.reverse.dropWhile (fun c => c = '/')).reverse)

/-- The branch of `get_target_url` that picks the base URL and route label:
`method.upper() in READ_METHODS` selects the (rstripped) `tailscale_url`,
anything else the (rstripped) `cloudflare_url`. -/
def classify (conf : Config) (method : String) : String × String :=
  if py_upper method ∈ READ_METHODS then
    (rstrip_slash conf.tailscale_url, "READ (Tailscale)")
  else
    (rstrip_slash conf.cloudflare_url, "WRITE (Cloudflare)")

/-- `get_target_url(method, path)` from the source, with the request's raw
query string passed explicitly (the source reads `request.query_string`;
an absent query is the empty string, matching the falsiness test
`if request.query_string`).  Returns `(target, route_type)`. -/
def get_target_url (conf : Config) (method path query : String) : String × String :=
  let bc := classify conf method
  let target := bc.1 ++ "/" ++ path
  let target := if query = "" then target else target ++ "?" ++ query
  (target, bc.2)

/-! ### Headers -/

/-- Inbound/outbound headers: an ordered list of name/value pairs,
possibly with repeated names. -/
abbrev Headers := List (String × String)

/-- The filter of `clean_headers`:
`key.lower() not in HOP_BY_HOP_HEADERS and key.lower() != 'host'`. -/
def keep_request_header (k : String) : Bool :=
  decide (py_lower k ∉ HOP_BY_HOP_HEADERS ∧ py_lower k ≠ "host")

/-- Python `dict` assignment `d[k] = v` on an association list: replace the
entry holding `k` in place, or append `(k, v)` when `k` is absent. -/
def dict_insert : Headers → String → String → Headers
  | [], k, v => [(k, v)]
  | p :: d, k, v => if p.1 = k then (k, v) :: d else p :: dict_insert d k v

/-- One iteration of the `clean_headers` loop. -/
def clean_step (acc : Headers) (kv : String × String) : Headers :=
  if keep_request_header kv.1 then dict_insert acc kv.1 kv.2 else acc

/-- `clean_headers(headers)` from the source: fold the incoming pairs into a
fresh dict, keeping only pairs passing the hop-by-hop/host filter. -/
def clean_headers (hs : Headers) : Headers :=
  hs.foldl clean_step []

/-- Membership test `'User-Agent' in incoming_headers` (a case-sensitive
`dict` key lookup in the source). -/
def has_user_agent (hs : Headers) : Bool :=
  hs.any (fun p => p.1 = "User-Agent")

/-- The fixed identifying User-Agent injected by `proxy`. -/
def USER_AGENT_VALUE : String := "SmartWebDAVProxy/2.0"

/-- The request-side header pipeline of `proxy`: `clean_headers` followed by
the conditional User-Agent injection. -/
def request_headers (hs : Headers) : Headers :=
  let c := clean_headers hs
  if has_user_agent c then c else dict_insert c "User-Agent" USER_AGENT_VALUE

/-- `excluded_headers` from the success branch of `proxy`. -/
def EXCLUDED_RESPONSE_HEADERS : List String :=
  HOP_BY_HOP_HEADERS ++ ["content-encoding", "content-length", "transfer-encoding", "connection"]

/-- The response-side header filter of `proxy`: keep `(name, value)` pairs
whose lowercased name is not excluded. -/
def filter_response_headers (hs : Headers) : Headers :=
  hs.filter (fun p => decide (py_lower p.1 ∉ EXCLUDED_RESPONSE_HEADERS))

/-! ### Upstream exchange, streaming, and the error branch -/

/-- An upstream response as obtained by `requests.request`: status code,
response headers, and the body byte stream. -/
structure Upstream where
  status : Nat
  headers : Headers
  body : List Nat

/-- `resp.iter_content(chunk_size=4096)`: the body split into successive
chunks of at most 4096 bytes. -/
def iter_content (body : List Nat) : List (List Nat) :=
  match body with
  | [] => []
  | b :: rest => ((b :: rest).take 4096) :: iter_content ((b :: rest).drop 4096)
termination_by body.length
decreasing_by simp [List.length_drop]; omega

/-- The downstream `Response` built in the success branch of `proxy`:
upstream status, filtered headers, and the chunked body stream. -/
structure DownResponse where
  status : Nat
  headers : Headers
  chunks : List (List Nat)
deriving DecidableEq

/-- The success branch of `proxy`. -/
def proxy_success (u : Upstream) : DownResponse :=
  { status := u.status
    headers := filter_response_headers u.headers
    chunks := iter_content u.body }

/-- What the server writes to the downstream connection, in order: the
status line together with the header block first, then the body chunks. -/
inductive WireEvent
  | statusAndHeaders (s : Nat) (hs : Headers)
  | bodyChunk (c : List Nat)
deriving DecidableEq

/-- Serialisation of a downstream response onto the wire: WSGI commits the
status and headers before the streamed body is iterated. -/
def wire (r : DownResponse) : List WireEvent :=
  WireEvent.statusAndHeaders r.status r.headers :: r.chunks.map WireEvent.bodyChunk

/-- The value returned downstream by the `proxy` handler: either the relayed
upstream response or the manufactured error response. -/
inductive Downstream
  | ok (r : DownResponse)
  | failure (status : Nat) (body : String)
deriving DecidableEq

/-- The `try`/`except` block of `proxy`: the whole forwarding and response
construction either succeeds with an upstream exchange or raises some
exception `e`, in which case the handler returns
`Response(f"Error: {str(e)}", status=502)` and logs that same message once.
Result: the downstream response together with the log lines emitted by this
block (the per-request routing line is logged before the block and is not
part of it). -/
def proxy_attempt (attempt : Except String Upstream) : Downstream × List String :=
  match attempt with
  | .ok u => (.ok (proxy_success u), [])
  | .error e => (.failure 502 ("Error: " ++ e), ["Error: " ++ e])

/-- A UTF-8 continuation byte, `0x80..0xBF`. -/
def is_cont (b : Nat) : Bool := decide (0x80 ≤ b ∧ b ≤ 0xBF)

/-- Strict UTF-8 decoding of a byte sequence (RFC 3629, as Python's
`bytes.decode('utf-8')` with the default strict error handler): rejects
overlong forms, surrogate code points and code points above `U+10FFFF`;
`none` models a raised `UnicodeDecodeError`. -/
def utf8_decode (bs : List Nat) : Option (List Char) :=
  match bs with
  | [] => some []
  | b :: rest =>
    if b ≤ 0x7F then
      (utf8_decode rest).map (fun cs => Char.ofNat b :: cs)
    else if 0xC2 ≤ b ∧ b ≤ 0xDF then
      match rest with
      | c1 :: r =>
        if is_cont c1 then
          (utf8_decode r).map (fun cs =>
            Char.ofNat ((b - 0xC0) * 0x40 + (c1 - 0x80)) :: cs)
        else none
      | [] => none
    else if 0xE0 ≤ b ∧ b ≤ 0xEF then
      match rest with
      | c1 :: c2 :: r =>
        if ((if b = 0xE0 then decide (0xA0 ≤ c1 ∧ c1 ≤ 0xBF)
             else if b = 0xED then decide (0x80 ≤ c1 ∧ c1 ≤ 0x9F)
             else is_cont c1) && is_cont c2) then
          (utf8_decode r).map (fun cs =>
            Char.ofNat ((b - 0xE0) * 0x1000 + (c1 - 0x80) * 0x40 + (c2 - 0x80)) :: cs)
        else none
      | _ => none
    else if 0xF0 ≤ b ∧ b ≤ 0xF4 then
      match rest with
      | c1 :: c2 :: c3 :: r =>
        if ((if b = 0xF0 then decide (0x90 ≤ c1 ∧ c1 ≤ 0xBF)
             else if b = 0xF4 then decide (0x80 ≤ c1 ∧ c1 ≤ 0x8F)
             else is_cont c1) && is_cont c2 && is_cont c3) then
          (utf8_decode r).map (fun cs =>
            Char.ofNat ((b - 0xF0) * 0x40000 + (c1 - 0x80) * 0x1000 +
              (c2 - 0x80) * 0x40 + (c3 - 0x80)) :: cs)
        else none
      | _ => none
    else none

/-- `request.query_string.decode('utf-8')` (line 66): the decoded query
string, or the raised `UnicodeDecodeError` on invalid UTF-8. -/
def py_decode_utf8 (bs : List Nat) : Except String String :=
  match utf8_decode bs with
  | some cs => Except.ok (String.mk cs)
  | none => Except.error "UnicodeDecodeError"

/-- The whole `proxy` handler body, pre-`try` part included.  The raw query
bytes are decoded inside `get_target_url` (line 66, reached from line 80)
*before* the `try` at line 88, so a `UnicodeDecodeError` there escapes the
handler — modelled as the outer `Except.error`.  When the query is absent
(`if request.query_string:` is falsy) no decode happens.  On success the
handler yields the target URL, the downstream response of the `try` block
(forwarding abstracted by `attempt`, as in `proxy_attempt`), and the log
lines: the routing line of line 86 followed by the `try` block's. -/
def proxy_handler (conf : Config) (method path : String) (qbytes : List Nat)
    (attempt : Except String Upstream) :
    Except String (String × Downstream × List String) :=
  match (if qbytes.isEmpty then Except.ok "" else py_decode_utf8 qbytes) with
  | Except.error e => Except.error e
  | Except.ok query =>
      let tr := get_target_url conf method path query
      let routeLog := "[" ++ method ++ "] " ++ tr.2 ++ ": /" ++ path
      let r := proxy_attempt attempt
      Except.ok (tr.1, r.1, routeLog :: r.2)

/-! ### GUI start path (`toggle_server`, `run_flask`) -/

/-- The configuration as held by the GUI: the port is a raw string coming
from the Tk entry widget (`port_var.get()`). -/
structure GuiConfig where
  tailscale_url : String
  cloudflare_url : String
  local_port : String
deriving Repr, DecidableEq

/-- The shared application state relevant to the start path. -/
structure GuiAppState where
  running : Bool
  config : GuiConfig
deriving Repr, DecidableEq

/-- What `toggle_server` reports back to its caller on the GUI thread:
either the already-running warning dialog, or the started banner.  It never
reports a configuration error. -/
inductive ToggleOutcome
  | warned
  | started
deriving Repr, DecidableEq

/-- `SmartGatewayGUI.toggle_server`: when not running, copy the three entry
fields into the shared config, spawn the server thread and set
`running = True` — with no validation of any field. -/
def toggle_server (st : GuiAppState) (ts cf port : String) : GuiAppState × ToggleOutcome :=
  if st.running then (st, .warned)
  else
    ({ running := true
       config := { tailscale_url := ts, cloudflare_url := cf, local_port := port } },
     .started)

/-- `'0' <= c <= '9'`. -/
def is_digit (c : Char) : Bool := decide ('0' ≤ c ∧ c ≤ '9')

/-- `int(app_state.config.get("local_port", 8888))` followed by the bind in
`run_flask`: a plain decimal string yields a port number; anything else makes
`int()` (or the subsequent bind) raise, landing in the `except` branch —
modelled as `none`. -/
def parse_port (s : String) : Option Nat :=
  if s.data ≠ [] ∧ s.data.all is_digit then
    some (s.data.foldl (fun acc c => 10 * acc + (c.toNat - 48)) 0)
  else none

/-- `run_flask` as observed through its log lines: it runs later, on the
daemon thread; a port-conversion (or bind) failure is caught by its
`try`/`except` and merely logged — nothing is reported back to the control
plane and `app_state.running` is left untouched. -/
def run_flask (conf : GuiConfig) : List String :=
  match parse_port conf.local_port with
  | some p => ["服务启动中... 监听端口: " ++ toString p]
  | none => ["服务启动失败: invalid literal for int()"]

/-! ### Interleaving model for the shared configuration

`app_state.config` is a global mutable object: `get_target_url` reads it at
classification time (`conf = app_state.config`), and the GUI thread writes
it (`save_config` / `toggle_server`).  The events below are the atomic steps
relevant to one in-flight request racing one configuration update. -/

/-- An atomic step of the gateway: a request starting, the GUI thread
publishing new upstream URLs, or the request's handler reading the shared
config and classifying. -/
inductive GwEvent
  | reqStart
  | cfgSet (ts cf : String)
  | reqClassify (method path query : String)

/-- The interleaving state: the live shared config, the (ghost) value the
shared config had when the request started, and the target URL the request
eventually computed. -/
structure TraceState where
  cfg : Config
  startCfg : Option Config
  result : Option String
deriving Repr, DecidableEq

/-- One step of the interleaving.  `reqStart` records (as ghost state only —
the code captures nothing) the config current at request start; `cfgSet`
mutates the shared config; `reqClassify` reads the *live* shared config, as
`get_target_url` does. -/
def gw_step (s : TraceState) : GwEvent → TraceState
  | .reqStart => { s with startCfg := some s.cfg }
  | .cfgSet ts cf => { s with cfg := ⟨ts, cf⟩ }
  | .reqClassify m p q => { s with result := some (get_target_url s.cfg m p q).1 }

/-- Run a schedule of events from an initial shared config. -/
def gw_run (c0 : Config) (evs : List GwEvent) : TraceState :=
  evs.foldl gw_step { cfg := c0, startCfg := none, result := none }

/-- Lookup in an association-list dict: the value of the entry carrying key
`k`, if any. -/
def alook (d : Headers) (k : String) : Option String :=
  (d.find? (fun p => decide (p.1 = k))).map Prod.snd

/-- The value of the last occurrence of key `k` among the inbound pairs that
pass the hop-by-hop/host filter. -/
def last_kept (hs : Headers) (k : String) : Option String :=
  (hs.reverse.find? (fun p => decide (p.1 = k) && keep_request_header p.1)).map Prod.snd

/-! ## Helper lemmas -/

theorem rstrip_slash_eq_self (s : String) (h : s.data.getLast? ≠ some '/') :
    rstrip_slash s = s := by
  obtain ⟨data⟩ := s
  unfold rstrip_slash
  simp only [String.data] at h ⊢
  cases hrev : data.reverse with
  | nil =>
    have hnil : data = [] := by simpa using congrArg List.reverse hrev
    simp [hnil]
  | cons a t =>
    have ha : a ≠ '/' := by
      intro hc
      apply h
      rw [← List.head?_reverse, hrev, hc]
      rfl
    have hd : data = (a :: t).reverse := by
      rw [← hrev, List.reverse_reverse]
    rw [List.dropWhile_cons]
    simp [ha, hd]

theorem head?_dropWhile_slash (l : List Char) :
    (l.dropWhile (fun c => decide (c = '/'))).head? ≠ some '/' := by
  induction l with
  | nil => simp
  | cons a t ih =>
    rw [List.dropWhile_cons]
    by_cases ha : a = '/'
    · simpa [ha] using ih
    · simp [ha]

theorem rstrip_slash_no_trailing (s : String) :
    (rstrip_slash s).data.getLast? ≠ some '/' := by
  unfold rstrip_slash
  rw [show (String.mk ((s.data.reverse.dropWhile (fun c => c = '/')).reverse)).data
        = (s.data.reverse.dropWhile (fun c => c = '/')).reverse from rfl]
  rw [List.getLast?_reverse]
  exact head?_dropWhile_slash s.data.reverse

theorem iter_content_flatten_aux :
    ∀ (n : Nat) (l : List Nat), l.length ≤ n → (iter_content l).flatten = l := by
  intro n
  induction n with
  | zero =>
    intro l h
    have hl : l = [] := by
      cases l with
      | nil => rfl
      | cons a t => simp at h
    subst hl
    simp [iter_content]
  | succ n ih =>
    intro l h
    cases l with
    | nil => simp [iter_content]
    | cons b rest =>
      simp only [iter_content, List.flatten_cons]
      rw [ih ((b :: rest).drop 4096) (by simp [List.length_drop]; simp at h; omega)]
      exact List.take_append_drop 4096 (b :: rest)

/-- The body is re-assembled exactly from the 4096-byte chunks. -/
theorem iter_content_flatten (l : List Nat) : (iter_content l).flatten = l :=
  iter_content_flatten_aux l.length l le_rfl

theorem iter_content_chunk_le_aux :
    ∀ (n : Nat) (l : List Nat), l.length ≤ n → ∀ c ∈ iter_content l, c.length ≤ 4096 := by
  intro n
  induction n with
  | zero =>
    intro l h c hc
    have hl : l = [] := by
      cases l with
      | nil => rfl
      | cons a t => simp at h
    subst hl
    simp [iter_content] at hc
  | succ n ih =>
    intro l h c hc
    cases l with
    | nil => simp [iter_content] at hc
    | cons b rest =>
      simp only [iter_content] at hc
      rcases List.mem_cons.mp hc with h1 | h2
      · subst h1
        rw [List.length_take]
        exact inf_le_left
      · refine ih ((b :: rest).drop 4096) ?_ c h2
        simp [List.length_drop]
        simp at h
        omega

/-- Every chunk emitted by `iter_content` holds at most 4096 bytes. -/
theorem iter_content_chunk_le (l : List Nat) : ∀ c ∈ iter_content l, c.length ≤ 4096 :=
  iter_content_chunk_le_aux l.length l le_rfl

theorem dict_insert_fresh (d : Headers) (k v : String) (h : k ∉ d.map Prod.fst) :
    dict_insert d k v = d ++ [(k, v)] := by
  induction d with
  | nil => rfl
  | cons p d ih =>
    simp only [List.map_cons, List.mem_cons] at h
    push_neg at h
    simp only [dict_insert]
    rw [if_neg (fun hc => h.1 hc.symm), ih h.2]
    rfl

theorem mem_dict_insert (d : Headers) (k v : String) (q : String × String)
    (h : q ∈ dict_insert d k v) : q = (k, v) ∨ q ∈ d := by
  induction d with
  | nil => simpa [dict_insert] using h
  | cons p d ih =>
    simp only [dict_insert] at h
    by_cases hpk : p.1 = k
    · rw [if_pos hpk] at h
      rcases List.mem_cons.mp h with h1 | h2
      · exact Or.inl h1
      · exact Or.inr (List.mem_cons.mpr (Or.inr h2))
    · rw [if_neg hpk] at h
      rcases List.mem_cons.mp h with h1 | h2
      · exact Or.inr (List.mem_cons.mpr (Or.inl h1))
      · rcases ih h2 with h3 | h4
        · exact Or.inl h3
        · exact Or.inr (List.mem_cons.mpr (Or.inr h4))

theorem keys_dict_insert (d : Headers) (k v : String) :
    (dict_insert d k v).map Prod.fst =
      if k ∈ d.map Prod.fst then d.map Prod.fst else d.map Prod.fst ++ [k] := by
  induction d with
  | nil => simp [dict_insert]
  | cons p d ih =>
    simp only [dict_insert]
    by_cases hpk : p.1 = k
    · rw [if_pos hpk]
      simp [hpk]
    · rw [if_neg hpk]
      simp only [List.map_cons, ih]
      by_cases hk : k ∈ d.map Prod.fst
      · rw [if_pos hk, if_pos (by simp [hk])]
      · rw [if_neg hk, if_neg (by
          simp only [List.mem_cons]
          push_neg
          exact ⟨fun hc => hpk hc.symm, hk⟩)]
        rfl

theorem nodup_keys_dict_insert (d : Headers) (k v : String)
    (h : (d.map Prod.fst).Nodup) : ((dict_insert d k v).map Prod.fst).Nodup := by
  rw [keys_dict_insert]
  by_cases hk : k ∈ d.map Prod.fst
  · rwa [if_pos hk]
  · rw [if_neg hk, List.nodup_append]
    refine ⟨h, List.nodup_singleton k, ?_⟩
    intro a ha hb
    simp only [List.mem_singleton] at hb
    subst hb
    exact hk ha

theorem alook_dict_insert_self (d : Headers) (k v : String) :
    alook (dict_insert d k v) k = some v := by
  induction d with
  | nil => simp [dict_insert, alook]
  | cons p d ih =>
    simp only [dict_insert]
    by_cases hpk : p.1 = k
    · rw [if_pos hpk]
      unfold alook
      rw [List.find?_cons_of_pos _ (by simp)]
      rfl
    · rw [if_neg hpk]
      unfold alook at ih ⊢
      rw [List.find?_cons_of_neg _ (by simpa using hpk)]
      exact ih

theorem alook_dict_insert_ne (d : Headers) (k' v k : String) (hne : k' ≠ k) :
    alook (dict_insert d k' v) k = alook d k := by
  induction d with
  | nil => simp [dict_insert, alook, hne]
  | cons p d ih =>
    simp only [dict_insert]
    by_cases hpk : p.1 = k'
    · rw [if_pos hpk]
      unfold alook
      rw [List.find?_cons_of_neg _ (by simpa using hne),
          List.find?_cons_of_neg _ (by simp [hpk, hne])]
    · rw [if_neg hpk]
      unfold alook at ih ⊢
      by_cases hpkk : p.1 = k
      · rw [List.find?_cons_of_pos _ (by simpa using hpkk),
            List.find?_cons_of_pos _ (by simpa using hpkk)]
      · rw [List.find?_cons_of_neg _ (by simpa using hpkk),
            List.find?_cons_of_neg _ (by simpa using hpkk)]
        exact ih

theorem foldl_clean_step_eq_append_filter :
    ∀ (hs acc : Headers), ((acc ++ hs).map Prod.fst).Nodup →
      hs.foldl clean_step acc = acc ++ hs.filter (fun kv => keep_request_header kv.1) := by
  intro hs
  induction hs with
  | nil => intro acc _; simp
  | cons q t ih =>
    intro acc h
    rw [List.foldl_cons]
    by_cases hkeep : keep_request_header q.1
    · have hq1 : q.1 ∉ acc.map Prod.fst := by
        rw [List.map_append] at h
        rcases List.nodup_append.mp h with ⟨_, _, hdisj⟩
        intro hmem
        exact hdisj hmem (by simp)
      have hstep : clean_step acc q = acc ++ [q] := by
        unfold clean_step
        rw [if_pos hkeep, dict_insert_fresh acc q.1 q.2 hq1, Prod.mk.eta]
      rw [hstep, ih (acc ++ [q]) (by simpa [List.append_assoc] using h)]
      simp [List.filter_cons, hkeep, List.append_assoc]
    · have hstep : clean_step acc q = acc := by
        unfold clean_step
        rw [if_neg hkeep]
      rw [hstep, ih acc (List.Nodup.sublist
            (List.Sublist.map _ ((List.sublist_cons_self q t).append_left acc)) h)]
      simp [List.filter_cons, hkeep]

theorem clean_headers_eq_filter (hs : Headers) (h : (hs.map Prod.fst).Nodup) :
    clean_headers hs = hs.filter (fun kv => keep_request_header kv.1) := by
  have h2 := foldl_clean_step_eq_append_filter hs [] (by simpa using h)
  simpa [clean_headers] using h2

theorem keep_of_mem_foldl :
    ∀ (hs acc : Headers), (∀ p ∈ acc, keep_request_header p.1 = true) →
      ∀ q ∈ hs.foldl clean_step acc, keep_request_header q.1 = true := by
  intro hs
  induction hs with
  | nil => intro acc hacc q hq; exact hacc q hq
  | cons r t ih =>
    intro acc hacc q hq
    rw [List.foldl_cons] at hq
    refine ih _ ?_ q hq
    intro p hp
    unfold clean_step at hp
    by_cases hkeep : keep_request_header r.1
    · rw [if_pos hkeep] at hp
      rcases mem_dict_insert _ _ _ _ hp with h1 | h2
      · rw [h1]
        exact hkeep
      · exact hacc p h2
    · rw [if_neg hkeep] at hp
      exact hacc p hp

theorem keep_of_mem_clean_headers (hs : Headers) :
    ∀ q ∈ clean_headers hs, keep_request_header q.1 = true := fun q hq =>
  keep_of_mem_foldl hs [] (by simp) q hq

theorem nodup_keys_foldl :
    ∀ (hs acc : Headers), (acc.map Prod.fst).Nodup →
      ((hs.foldl clean_step acc).map Prod.fst).Nodup := by
  intro hs
  induction hs with
  | nil => intro acc h; exact h
  | cons r t ih =>
    intro acc h
    rw [List.foldl_cons]
    refine ih _ ?_
    unfold clean_step
    by_cases hkeep : keep_request_header r.1
    · rw [if_pos hkeep]
      exact nodup_keys_dict_insert acc r.1 r.2 h
    · rwa [if_neg hkeep]

theorem nodup_keys_clean_headers (hs : Headers) :
    ((clean_headers hs).map Prod.fst).Nodup :=
  nodup_keys_foldl hs [] (by simp)

theorem clean_headers_idem (hs : Headers) :
    clean_headers (clean_headers hs) = clean_headers hs := by
  rw [clean_headers_eq_filter (clean_headers hs) (nodup_keys_clean_headers hs)]
  exact List.filter_eq_self.mpr (keep_of_mem_clean_headers hs)

theorem alook_foldl_clean_step :
    ∀ (hs acc : Headers) (k : String),
      alook (hs.foldl clean_step acc) k = (last_kept hs k).or (alook acc k) := by
  intro hs
  induction hs with
  | nil =>
    intro acc k
    simp [last_kept, Option.none_or]
  | cons q t ih =>
    intro acc k
    rw [List.foldl_cons, ih]
    have hsplit : last_kept (q :: t) k =
        (last_kept t k).or
          (if q.1 = k ∧ keep_request_header q.1 = true then some q.2 else none) := by
      unfold last_kept
      rw [List.reverse_cons, List.find?_append]
      cases hfind : t.reverse.find? (fun p => decide (p.1 = k) && keep_request_header p.1) with
      | some p => simp [Option.or]
      | none =>
        simp only [Option.none_or, Option.map_none']
        by_cases hq : q.1 = k ∧ keep_request_header q.1 = true
        · rw [List.find?_cons_of_pos _ (by
            simp only [Bool.and_eq_true, decide_eq_true_eq]
            exact hq), if_pos hq]
          rfl
        · rw [List.find?_cons_of_neg _ (by
            simp only [Bool.and_eq_true, decide_eq_true_eq]
            exact hq), if_neg hq]
          rfl
    have hstep : alook (clean_step acc q) k =
        (if q.1 = k ∧ keep_request_header q.1 = true then some q.2 else none).or
          (alook acc k) := by
      unfold clean_step
      by_cases hkeep : keep_request_header q.1 = true
      · rw [if_pos hkeep]
        by_cases hq : q.1 = k
        · subst hq
          rw [alook_dict_insert_self, if_pos ⟨rfl, hkeep⟩]
          rfl
        · rw [alook_dict_insert_ne acc q.1 q.2 k hq, if_neg (fun hc => hq hc.1),
              Option.none_or]
      · rw [if_neg hkeep, if_neg (fun hc => hkeep hc.2), Option.none_or]
    rw [hsplit, hstep, Option.or_assoc]

/-- The sanitized dict resolves each key to the value of the last kept
occurrence of that key among the inbound pairs. -/
theorem alook_clean_headers (hs : Headers) (k : String) :
    alook (clean_headers hs) k = last_kept hs k := by
  have h := alook_foldl_clean_step hs [] k
  simpa [clean_headers, alook, Option.or_none] using h

/-! ## Claims -/

/-- C1: if the method, compared case-insensitively (uppercased), is one of
GET, HEAD, OPTIONS, PROPFIND, the base URL chosen by the classifier equals
the configured read-upstream base URL (`tailscale_url`); for every other
method it equals the configured write-upstream base URL (`cloudflare_url`).
The configured URLs are assumed already normalized — no trailing slash — as
the RouteConfig invariant requires. -/
theorem classify_read_write (conf : Config) (method : String)
    (hts : conf.tailscale_url.data.getLast? ≠ some '/')
    (hcf : conf.cloudflare_url.data.getLast? ≠ some '/') :
    (py_upper method ∈ READ_METHODS → (classify conf method).1 = conf.tailscale_url) ∧
    (py_upper method ∉ READ_METHODS → (classify conf method).1 = conf.cloudflare_url) := by
  unfold classify
  constructor
  · intro hm
    rw [if_pos hm]
    exact rstrip_slash_eq_self _ hts
  · intro hm
    rw [if_neg hm]
    exact rstrip_slash_eq_self _ hcf

/-- Witness for C1 at a concrete configuration and the lowercase method
`"get"`. -/
theorem classify_read_write_witness :
    ((Config.mk "http://a" "http://b").tailscale_url.data.getLast? ≠ some '/') ∧
    ((Config.mk "http://a" "http://b").cloudflare_url.data.getLast? ≠ some '/') ∧
    ((py_upper "get" ∈ READ_METHODS →
        (classify (Config.mk "http://a" "http://b") "get").1 = "http://a") ∧
     (py_upper "get" ∉ READ_METHODS →
        (classify (Config.mk "http://a" "http://b") "get").1 = "http://b")) :=
  ⟨by decide, by decide,
   classify_read_write (Config.mk "http://a" "http://b") "get" (by decide) (by decide)⟩

/-- C2: the computed target URL is the chosen base (the configured URL with
every trailing slash stripped, hence itself never slash-terminated) followed
by `"/"` and the path; when the raw query string is non-empty, `"?"` and the
query are appended verbatim, byte for byte. -/
theorem get_target_url_spec (conf : Config) (method path query : String) :
    (get_target_url conf method path query).1 =
      (if query = "" then (classify conf method).1 ++ "/" ++ path
       else (classify conf method).1 ++ "/" ++ path ++ "?" ++ query) ∧
    (classify conf method).1 =
      rstrip_slash (if py_upper method ∈ READ_METHODS then conf.tailscale_url
                    else conf.cloudflare_url) ∧
    ((classify conf method).1).data.getLast? ≠ some '/' := by
  refine ⟨?_, ?_, ?_⟩
  · unfold get_target_url
    by_cases hq : query = "" <;> simp [hq]
  · unfold classify
    by_cases hm : py_upper method ∈ READ_METHODS <;> simp [hm]
  · unfold classify
    by_cases hm : py_upper method ∈ READ_METHODS
    · rw [if_pos hm]
      exact rstrip_slash_no_trailing _
    · rw [if_neg hm]
      exact rstrip_slash_no_trailing _

/-- C3: the success branch of `proxy` relays the upstream status unchanged,
relays the body bytes exactly (the chunks reassemble to the upstream body,
each chunk at most 4096 bytes), strips every hop-by-hop header as well as
content-length and content-encoding from the response headers, and commits
status and headers on the wire before any body chunk. -/
theorem proxy_success_relay (u : Upstream) :
    (proxy_success u).status = u.status ∧
    (proxy_success u).chunks.flatten = u.body ∧
    (∀ c ∈ (proxy_success u).chunks, c.length ≤ 4096) ∧
    (∀ p ∈ (proxy_success u).headers,
        py_lower p.1 ∉ HOP_BY_HOP_HEADERS ∧
        py_lower p.1 ≠ "content-length" ∧ py_lower p.1 ≠ "content-encoding") ∧
    wire (proxy_success u) =
      WireEvent.statusAndHeaders u.status (filter_response_headers u.headers) ::
        (iter_content u.body).map WireEvent.bodyChunk := by
  refine ⟨rfl, iter_content_flatten u.body, iter_content_chunk_le u.body, ?_, rfl⟩
  intro p hp
  have hpass := List.of_mem_filter
    (show p ∈ u.headers.filter (fun p => decide (py_lower p.1 ∉ EXCLUDED_RESPONSE_HEADERS)) from hp)
  simp only [decide_eq_true_eq] at hpass
  refine ⟨?_, ?_, ?_⟩
  · intro hmem
    exact hpass (by simp [EXCLUDED_RESPONSE_HEADERS, hmem])
  · intro heq
    exact hpass (by rw [heq]; decide)
  · intro heq
    exact hpass (by rw [heq]; decide)

/-- C4: on inbound headers with pairwise-distinct names, `clean_headers`
keeps exactly the pairs whose lowercased name is neither hop-by-hop nor
`host`, each unchanged (it is the filter by that test), and `proxy` injects
the fixed User-Agent value exactly when no `User-Agent` key is present in
the sanitized headers. -/
theorem clean_headers_spec (hs : Headers) (h : (hs.map Prod.fst).Nodup) :
    clean_headers hs = hs.filter (fun kv => keep_request_header kv.1) ∧
    (∀ kv ∈ hs, (kv ∈ clean_headers hs ↔
        (py_lower kv.1 ∉ HOP_BY_HOP_HEADERS ∧ py_lower kv.1 ≠ "host"))) ∧
    (has_user_agent (clean_headers hs) = false →
        request_headers hs = clean_headers hs ++ [("User-Agent", USER_AGENT_VALUE)]) ∧
    (has_user_agent (clean_headers hs) = true →
        request_headers hs = clean_headers hs) := by
  have hfil := clean_headers_eq_filter hs h
  refine ⟨hfil, ?_, ?_, ?_⟩
  · intro kv hkv
    rw [hfil, List.mem_filter]
    unfold keep_request_header
    simp [hkv]
  · intro hua
    unfold request_headers
    rw [if_neg (by simp [hua])]
    apply dict_insert_fresh
    intro hmem
    rcases List.mem_map.mp hmem with ⟨p, hp, hfst⟩
    have htrue : has_user_agent (clean_headers hs) = true := by
      unfold has_user_agent
      rw [List.any_eq_true]
      exact ⟨p, hp, by simp [hfst]⟩
    rw [htrue] at hua
    cases hua
  · intro hua
    unfold request_headers
    rw [if_pos hua]

/-- Witness for C4 at a concrete header list with distinct names. -/
theorem clean_headers_spec_witness :
    ((([("Connection", "close"), ("Host", "h"), ("X-A", "1")] : Headers).map Prod.fst).Nodup) ∧
    (clean_headers [("Connection", "close"), ("Host", "h"), ("X-A", "1")] =
        ([("Connection", "close"), ("Host", "h"), ("X-A", "1")] : Headers).filter
          (fun kv => keep_request_header kv.1) ∧
     (∀ kv ∈ ([("Connection", "close"), ("Host", "h"), ("X-A", "1")] : Headers),
        (kv ∈ clean_headers [("Connection", "close"), ("Host", "h"), ("X-A", "1")] ↔
          (py_lower kv.1 ∉ HOP_BY_HOP_HEADERS ∧ py_lower kv.1 ≠ "host"))) ∧
     (has_user_agent (clean_headers [("Connection", "close"), ("Host", "h"), ("X-A", "1")]) = false →
        request_headers [("Connection", "close"), ("Host", "h"), ("X-A", "1")] =
          clean_headers [("Connection", "close"), ("Host", "h"), ("X-A", "1")] ++
            [("User-Agent", USER_AGENT_VALUE)]) ∧
     (has_user_agent (clean_headers [("Connection", "close"), ("Host", "h"), ("X-A", "1")]) = true →
        request_headers [("Connection", "close"), ("Host", "h"), ("X-A", "1")] =
          clean_headers [("Connection", "close"), ("Host", "h"), ("X-A", "1")])) :=
  ⟨by decide, clean_headers_spec [("Connection", "close"), ("Host", "h"), ("X-A", "1")] (by decide)⟩

/-- C5: both header sanitizers are idempotent, and neither ever leaves a
hop-by-hop header in its output. -/
theorem sanitizers_idempotent_hop_free (hs : Headers) :
    clean_headers (clean_headers hs) = clean_headers hs ∧
    filter_response_headers (filter_response_headers hs) = filter_response_headers hs ∧
    (∀ p ∈ clean_headers hs, py_lower p.1 ∉ HOP_BY_HOP_HEADERS) ∧
    (∀ p ∈ filter_response_headers hs, py_lower p.1 ∉ HOP_BY_HOP_HEADERS) := by
  refine ⟨clean_headers_idem hs, ?_, ?_, ?_⟩
  · unfold filter_response_headers
    refine List.filter_eq_self.mpr ?_
    intro a ha
    exact (List.mem_filter.mp ha).2
  · intro p hp
    have hk := keep_of_mem_clean_headers hs p hp
    unfold keep_request_header at hk
    simp only [decide_eq_true_eq] at hk
    exact hk.1
  · intro p hp
    have hpass := List.of_mem_filter hp
    simp only [decide_eq_true_eq] at hpass
    intro hmem
    exact hpass (by simp [EXCLUDED_RESPONSE_HEADERS, hmem])

/-- C6: when upstream forwarding raises, the handler returns status 502 with
a plain-text body containing the error description, and emits exactly one
log line for the failure. -/
theorem proxy_attempt_error_response (e : String) :
    (proxy_attempt (Except.error e)).1 = Downstream.failure 502 ("Error: " ++ e) ∧
    (∃ pre, "Error: " ++ e = pre ++ e) ∧
    (proxy_attempt (Except.error e)).2 = ["Error: " ++ e] ∧
    (proxy_attempt (Except.error e)).2.length = 1 :=
  ⟨rfl, ⟨"Error: ", rfl⟩, rfl, rfl⟩

/-- C9: the sanitized request headers form a genuine mapping — the output
names are pairwise distinct — and each name resolves to the value of the
last kept occurrence of that name in the inbound list, so of repeated
occurrences only the last survives. -/
theorem clean_headers_last_occurrence (hs : Headers) :
    ((clean_headers hs).map Prod.fst).Nodup ∧
    (∀ k, alook (clean_headers hs) k = last_kept hs k) :=
  ⟨nodup_keys_clean_headers hs, fun k => alook_clean_headers hs k⟩

/-- C10 counterexample: a GET request whose raw query string is the single
non-UTF-8 byte `0xFF` makes the handler itself raise — `decode('utf-8')`
runs inside `get_target_url` (line 66, reached from line 80), before the
`try` at line 88 — so the exception escapes the handler instead of becoming
a 502, refuting the claim that the handler never propagates. -/
theorem proxy_handler_propagates_cex :
    py_decode_utf8 [255] = Except.error "UnicodeDecodeError" ∧
    proxy_handler (Config.mk "http://a" "http://b") "GET" "p" [255]
        (Except.ok (Upstream.mk 200 [] [])) = Except.error "UnicodeDecodeError" :=
  ⟨rfl, rfl⟩

/-- C10 (amended): every exception raised inside the `try` block — upstream
forwarding and downstream response construction — is caught and converted
into the 502 response whose body carries the exception's text; but the
handler can itself propagate an exception raised before the `try`: decoding
a non-UTF-8 raw query string raises `UnicodeDecodeError` out of the handler.
When the query is absent or decodes, the handler never propagates. -/
theorem proxy_handler_exception_behavior (conf : Config) (method path : String)
    (qbytes : List Nat) (attempt : Except String Upstream) :
    (∀ e, qbytes.isEmpty = false → py_decode_utf8 qbytes = Except.error e →
        proxy_handler conf method path qbytes attempt = Except.error e) ∧
    (∀ query, qbytes.isEmpty = false → py_decode_utf8 qbytes = Except.ok query →
        proxy_handler conf method path qbytes attempt =
          Except.ok ((get_target_url conf method path query).1,
            (proxy_attempt attempt).1,
            ("[" ++ method ++ "] " ++ (get_target_url conf method path query).2 ++ ": /" ++ path)
              :: (proxy_attempt attempt).2)) ∧
    (qbytes.isEmpty = true →
        proxy_handler conf method path qbytes attempt =
          Except.ok ((get_target_url conf method path "").1,
            (proxy_attempt attempt).1,
            ("[" ++ method ++ "] " ++ (get_target_url conf method path "").2 ++ ": /" ++ path)
              :: (proxy_attempt attempt).2)) ∧
    (∀ e, attempt = Except.error e →
        (proxy_attempt attempt).1 = Downstream.failure 502 ("Error: " ++ e)) := by
  refine ⟨?_, ?_, ?_, ?_⟩
  · intro e hne hdec
    unfold proxy_handler
    rw [hne]
    simp only [Bool.false_eq_true, if_false, hdec]
  · intro query hne hdec
    unfold proxy_handler
    rw [hne]
    simp only [Bool.false_eq_true, if_false, hdec]
  · intro hq
    unfold proxy_handler
    rw [hq]
    simp only [if_true]
  · intro e he
    subst he
    rfl

/-- Witness for the amended C10 at concrete requests: a decode failure
propagating, a decoding query taking the normal path, an absent query taking
the normal path, and the 502 conversion of a forwarding error. -/
theorem proxy_handler_exception_behavior_witness :
    ((∀ e, ([255] : List Nat).isEmpty = false → py_decode_utf8 [255] = Except.error e →
        proxy_handler (Config.mk "http://a" "http://b") "GET" "p" [255]
          (Except.error "boom") = Except.error e) ∧
     (∀ query, ([255] : List Nat).isEmpty = false → py_decode_utf8 [255] = Except.ok query →
        proxy_handler (Config.mk "http://a" "http://b") "GET" "p" [255]
          (Except.error "boom") =
          Except.ok ((get_target_url (Config.mk "http://a" "http://b") "GET" "p" query).1,
            (proxy_attempt (Except.error "boom")).1,
            ("[" ++ "GET" ++ "] " ++
                (get_target_url (Config.mk "http://a" "http://b") "GET" "p" query).2 ++
                ": /" ++ "p") :: (proxy_attempt (Except.error "boom")).2)) ∧
     (([255] : List Nat).isEmpty = true →
        proxy_handler (Config.mk "http://a" "http://b") "GET" "p" [255]
          (Except.error "boom") =
          Except.ok ((get_target_url (Config.mk "http://a" "http://b") "GET" "p" "").1,
            (proxy_attempt (Except.error "boom")).1,
            ("[" ++ "GET" ++ "] " ++
                (get_target_url (Config.mk "http://a" "http://b") "GET" "p" "").2 ++
                ": /" ++ "p") :: (proxy_attempt (Except.error "boom")).2)) ∧
     (∀ e, (Except.error "boom" : Except String Upstream) = Except.error e →
        (proxy_attempt (Except.error "boom" : Except String Upstream)).1 =
          Downstream.failure 502 ("Error: " ++ e))) :=
  proxy_handler_exception_behavior (Config.mk "http://a" "http://b") "GET" "p" [255]
    (Except.error "boom")

/-- C7 counterexample: starting the server from a stopped state with empty
base URLs and an unparseable port string raises no synchronous ConfigError —
the outcome is the plain started banner — and leaves the control-plane state
flagged as running, even though the port does not convert. -/
theorem toggle_server_no_validation_cex :
    (toggle_server (GuiAppState.mk false (GuiConfig.mk "" "" "")) "" "" "not-a-port").1.running
        = true ∧
    (toggle_server (GuiAppState.mk false (GuiConfig.mk "" "" "")) "" "" "not-a-port").2
        = ToggleOutcome.started ∧
    (toggle_server (GuiAppState.mk false (GuiConfig.mk "" "" "")) "" "" "not-a-port").1.config
        = GuiConfig.mk "" "" "not-a-port" ∧
    parse_port "not-a-port" = none := by
  refine ⟨rfl, rfl, rfl, by decide⟩

/-- C7 (amended): starting the server performs no validation at all — for
any base URLs and any port string, `toggle_server` from a non-running state
marks the server running and reports plain success, never a ConfigError; the
port is converted only later, inside the server thread, where a conversion
or bind failure is caught and turned into a log line, so the control plane
can believe the server is running under an invalid configuration. -/
theorem toggle_server_starts_unvalidated (st : GuiAppState) (ts cf port : String)
    (h : st.running = false) :
    (toggle_server st ts cf port).1.running = true ∧
    (toggle_server st ts cf port).2 = ToggleOutcome.started ∧
    (toggle_server st ts cf port).1.config = GuiConfig.mk ts cf port ∧
    (parse_port port = none →
        run_flask (GuiConfig.mk ts cf port) = ["服务启动失败: invalid literal for int()"]) := by
  unfold toggle_server
  rw [h]
  refine ⟨rfl, rfl, rfl, ?_⟩
  intro hp
  unfold run_flask
  rw [hp]

/-- Witness for the amended C7 at a stopped state and an invalid port. -/
theorem toggle_server_starts_unvalidated_witness :
    ((GuiAppState.mk false (GuiConfig.mk "x" "y" "1")).running = false) ∧
    ((toggle_server (GuiAppState.mk false (GuiConfig.mk "x" "y" "1")) "" "" "not-a-port").1.running
        = true ∧
     (toggle_server (GuiAppState.mk false (GuiConfig.mk "x" "y" "1")) "" "" "not-a-port").2
        = ToggleOutcome.started ∧
     (toggle_server (GuiAppState.mk false (GuiConfig.mk "x" "y" "1")) "" "" "not-a-port").1.config
        = GuiConfig.mk "" "" "not-a-port" ∧
     (parse_port "not-a-port" = none →
        run_flask (GuiConfig.mk "" "" "not-a-port")
          = ["服务启动失败: invalid literal for int()"])) :=
  ⟨rfl, toggle_server_starts_unvalidated
    (GuiAppState.mk false (GuiConfig.mk "x" "y" "1")) "" "" "not-a-port" rfl⟩

/-- C8 counterexample: a request that starts under the initial configuration
but classifies after the GUI thread overwrites the shared config computes
its target from the new value, not from the snapshot current at its start —
the snapshot-isolation property fails on this interleaving. -/
theorem shared_config_race_cex :
    (gw_run (Config.mk "http://a" "http://b")
        [GwEvent.reqStart, GwEvent.cfgSet "http://c" "http://d",
         GwEvent.reqClassify "GET" "p" ""]).startCfg = some (Config.mk "http://a" "http://b") ∧
    (gw_run (Config.mk "http://a" "http://b")
        [GwEvent.reqStart, GwEvent.cfgSet "http://c" "http://d",
         GwEvent.reqClassify "GET" "p" ""]).result = some "http://c/p" ∧
    (get_target_url (Config.mk "http://a" "http://b") "GET" "p" "").1 = "http://a/p" ∧
    (gw_run (Config.mk "http://a" "http://b")
        [GwEvent.reqStart, GwEvent.cfgSet "http://c" "http://d",
         GwEvent.reqClassify "GET" "p" ""]).result ≠
      some (get_target_url (Config.mk "http://a" "http://b") "GET" "p" "").1 := by
  refine ⟨rfl, by decide, by decide, by decide⟩

/-- C8 (amended): request handlers read the live shared configuration at
classification time, not a snapshot captured at request start: on every
schedule where the GUI thread publishes new upstream URLs between a
request's start and its classification, the request's target URL is computed
from the newly published values. -/
theorem shared_config_reads_live_config (c0 : Config) (ts cf method path query : String) :
    (gw_run c0 [GwEvent.reqStart, GwEvent.cfgSet ts cf,
        GwEvent.reqClassify method path query]).result =
      some (get_target_url (Config.mk ts cf) method path query).1 ∧
    (gw_run c0 [GwEvent.reqStart, GwEvent.cfgSet ts cf,
        GwEvent.reqClassify method path query]).startCfg = some c0 := by
  exact ⟨rfl, rfl⟩

end SmartWebdav
